import Mathlib

/-!
Verification of the Diff Structuring & Risk Assessment Engine.

Shallow embedding of the analyzer code: `ChangeAnalyzer`
(`change-analyzer.mjs`) and `DiffAnalyzer` (`diff-analyzer.mjs`).
Strings are modelled with Lean `String`/`List Char`; the JavaScript
regular expressions are embedded as deterministic scanners matching the
source patterns; machine integers are `Nat` (all counts are small and
non-negative in the source).
-/

/-- JavaScript `String.prototype.startsWith`: `p` is a prefix of `s`. -/
def strStarts (s p : String) : Bool :=
  p.data.isPrefixOf s.data

/-- JavaScript whitespace class `\s` restricted to the ASCII whitespace
characters that can occur in the analyzed source texts. -/
def isWSC (c : Char) : Bool :=
  c.toNat = 32 || c.toNat = 9 || c.toNat = 10 || c.toNat = 13 || c.toNat = 11 || c.toNat = 12

/-- The regex digit class `\d`. -/
def isDigitC (c : Char) : Bool :=
  48 ≤ c.toNat && c.toNat ≤ 57

/-- The regex word class `\w` (letters, digits, underscore). -/
def isWordC (c : Char) : Bool :=
  isDigitC c || (65 ≤ c.toNat && c.toNat ≤ 90) || (97 ≤ c.toNat && c.toNat ≤ 122) || c.toNat = 95

/-- Numeric value of a digit string (the value `parseInt` yields on an
all-digit string). -/
def natOfDigits (ds : List Char) : Nat :=
  ds.foldl (fun n c => n * 10 + (c.toNat - 48)) 0

/-- JavaScript `parseInt(x) || 0` where `x` is an optional captured
group: `undefined` parses to `NaN`, and `NaN || 0` is `0`; otherwise
leading whitespace is skipped and the leading digit run is parsed,
an empty digit run again giving `NaN`, hence `0`. -/
def jsParseIntOr0 : Option (List Char) → Nat
  | none => 0
  | some ds =>
    let t := ds.dropWhile isWSC
    let digs := t.takeWhile isDigitC
    if digs.isEmpty then 0 else natOfDigits digs

/-- JavaScript `String.prototype.includes` on character lists. -/
def containsSub : List Char → List Char → Bool
  | [], needle => needle.isEmpty
  | c :: t, needle => needle.isPrefixOf (c :: t) || containsSub t needle

/-- JavaScript `String.prototype.replace(pat, repl)` with a string
pattern: replaces the first occurrence only. -/
def replaceFirstSub (pat repl : List Char) : List Char → List Char
  | [] => if pat.isEmpty then repl else []
  | c :: t =>
    if pat.isPrefixOf (c :: t) then repl ++ (c :: t).drop pat.length
    else c :: replaceFirstSub pat repl t

/-- JavaScript `String.prototype.trim` (over ASCII whitespace). -/
def trimChars (cs : List Char) : List Char :=
  ((cs.dropWhile isWSC).reverse.dropWhile isWSC).reverse

/-- JavaScript `String.prototype.split` with a one-character separator. -/
def splitOnChar (sep : Char) : List Char → List (List Char)
  | [] => [[]]
  | c :: t =>
    let r := splitOnChar sep t
    if c = sep then [] :: r
    else
      match r with
      | h :: t2 => (c :: h) :: t2
      | [] => [[c]]

/-- JavaScript `String.prototype.endsWith`. -/
def strEnds (s p : String) : Bool :=
  p.data.isSuffixOf s.data

/-- The three risk levels produced by the analyzer (the source uses the
strings `LOW`/`MEDIUM`/`HIGH`). -/
inductive RiskLevel where
  | LOW
  | MEDIUM
  | HIGH
deriving DecidableEq, Repr

/-- The factor breakdown recorded in a risk assessment
(`ChangeAnalyzer.assessRisk`, the `factors` object). -/
structure RiskFactors where
  totalFiles : Nat
  affectedClients : Nat
  generatedChanges : Nat
deriving DecidableEq, Repr

/-- `RiskAssessment`: level, numeric score, factor breakdown. -/
structure RiskAssessment where
  level : RiskLevel
  score : Nat
  factors : RiskFactors
deriving DecidableEq, Repr

/-- The file-change-impact points of `ChangeAnalyzer.assessRisk`. -/
def fileScore (totalFiles : Nat) : Nat :=
  if totalFiles > 20 then 3
  else if totalFiles > 10 then 2
  else if totalFiles > 5 then 1
  else 0

/-- The client-impact points of `ChangeAnalyzer.assessRisk`. -/
def clientScore (affectedClients : Nat) : Nat :=
  if affectedClients > 3 then 3
  else if affectedClients > 1 then 2
  else if affectedClients > 0 then 1
  else 0

/-- The generated-code-change points of `ChangeAnalyzer.assessRisk`. -/
def genScore (generatedChanges : Nat) : Nat :=
  if generatedChanges > 10 then 2
  else if generatedChanges > 5 then 1
  else 0

/-- The accumulated score of `ChangeAnalyzer.assessRisk`. -/
def riskScore (totalFiles affectedClients generatedChanges : Nat) : Nat :=
  fileScore totalFiles + clientScore affectedClients + genScore generatedChanges

/-- `ChangeAnalyzer.assessRisk`: integer point accumulation over the
three factor counts, then threshold classification. -/
def assessRisk (totalFiles affectedClients generatedChanges : Nat) : RiskAssessment :=
  let factors : RiskFactors :=
    { totalFiles := totalFiles
      affectedClients := affectedClients
      generatedChanges := generatedChanges }
  let score : Nat := riskScore totalFiles affectedClients generatedChanges
  if score ≥ 6 then { level := RiskLevel.HIGH, score := score, factors := factors }
  else if score ≥ 3 then { level := RiskLevel.MEDIUM, score := score, factors := factors }
  else { level := RiskLevel.LOW, score := score, factors := factors }

theorem assessRisk_score_eq (t a g : Nat) :
    (assessRisk t a g).score = riskScore t a g := by
  unfold assessRisk
  dsimp only
  generalize riskScore t a g = s
  split
  · rfl
  · split <;> rfl

theorem assessRisk_level_eq (t a g : Nat) :
    (assessRisk t a g).level =
      (if 6 ≤ riskScore t a g then RiskLevel.HIGH
       else if 3 ≤ riskScore t a g then RiskLevel.MEDIUM
       else RiskLevel.LOW) := by
  unfold assessRisk
  dsimp only
  generalize riskScore t a g = s
  split
  · simp_all [ge_iff_le]
  · split <;> simp_all [ge_iff_le]

/-- C1. For every factor triple `(t, a, g)` the risk score equals the
sum of the three per-factor point tables, the level is HIGH iff the
score is at least 6, MEDIUM iff it is between 3 and 5, LOW iff it is at
most 2, and the triple `(25, 4, 12)` yields score 8 and level HIGH. -/
theorem assessRisk_score_and_level (t a g : Nat) :
    (assessRisk t a g).score =
      ((if t > 20 then 3 else if t > 10 then 2 else if t > 5 then 1 else 0) +
       (if a > 3 then 3 else if a > 1 then 2 else if a > 0 then 1 else 0) +
       (if g > 10 then 2 else if g > 5 then 1 else 0)) ∧
    ((assessRisk t a g).level = RiskLevel.HIGH ↔ 6 ≤ (assessRisk t a g).score) ∧
    ((assessRisk t a g).level = RiskLevel.MEDIUM ↔
      3 ≤ (assessRisk t a g).score ∧ (assessRisk t a g).score ≤ 5) ∧
    ((assessRisk t a g).level = RiskLevel.LOW ↔ (assessRisk t a g).score ≤ 2) ∧
    (assessRisk 25 4 12).score = 8 ∧ (assessRisk 25 4 12).level = RiskLevel.HIGH := by
  have hs := assessRisk_score_eq t a g
  have hl := assessRisk_level_eq t a g
  refine ⟨by rw [hs]; rfl, ?_, ?_, ?_, by decide, by decide⟩ <;>
    rw [hl, hs] <;> split_ifs <;> simp_all <;> omega

theorem fileScore_mono {t t' : Nat} (h : t ≤ t') : fileScore t ≤ fileScore t' := by
  unfold fileScore
  split_ifs <;> omega

theorem clientScore_mono {a a' : Nat} (h : a ≤ a') : clientScore a ≤ clientScore a' := by
  unfold clientScore
  split_ifs <;> omega

theorem genScore_mono {g g' : Nat} (h : g ≤ g') : genScore g ≤ genScore g' := by
  unfold genScore
  split_ifs <;> omega

/-- C7. The risk score is monotone: increasing any of the three factor
counts (jointly, hence in particular any single one with the others
fixed) never decreases the score. -/
theorem assessRisk_score_monotone (t t' a a' g g' : Nat)
    (ht : t ≤ t') (ha : a ≤ a') (hg : g ≤ g') :
    (assessRisk t a g).score ≤ (assessRisk t' a' g').score := by
  rw [assessRisk_score_eq, assessRisk_score_eq]
  unfold riskScore
  have h1 := fileScore_mono ht
  have h2 := clientScore_mono ha
  have h3 := genScore_mono hg
  omega

/-- Witness for C7 at a concrete input. -/
theorem assessRisk_score_monotone_witness :
    (assessRisk 6 1 0).score ≤ (assessRisk 11 2 6).score :=
  assessRisk_score_monotone 6 11 1 2 0 6 (by decide) (by decide) (by decide)

/-- A line-level change inside a hunk (`DiffAnalyzer.parseStructuredDiff`,
the objects pushed onto `currentHunk.changes`): `type` is one of
`addition`, `deletion`, `context`. -/
structure LineChange where
  type : String
  content : String
deriving DecidableEq, Repr

/-- A hunk (`DiffAnalyzer.parseStructuredDiff`, the objects pushed onto
`currentFile.hunks`): the raw header line and the recorded changes. -/
structure Hunk where
  header : String
  changes : List LineChange
deriving DecidableEq, Repr

/-- A per-file change record (`DiffAnalyzer.parseStructuredDiff`, the
objects pushed onto `files`). -/
structure FileChange where
  path : String
  hunks : List Hunk
  isNewFile : Bool
  isDeletedFile : Bool
deriving DecidableEq, Repr

/-- The loop state of `DiffAnalyzer.parseStructuredDiff`: the completed
`files`, the `currentFile` cursor, and whether `currentHunk` is
non-null.  In the source `currentHunk` aliases the last hunk pushed
onto `currentFile.hunks`, so appending to it is modelled as rewriting
the last element of that list. -/
structure ParseState where
  files : List FileChange
  currentFile : Option FileChange
  hunkOpen : Bool
deriving Repr

/-- Rightmost split of the text after `a/` at a ` b/` marker with a
non-empty remainder: the backtracking behaviour of the greedy groups in
the pattern `diff --git a\/(.+) b\/(.+)`. -/
def lastBSplit : List Char → Option (List Char × List Char)
  | [] => none
  | c :: t =>
    match lastBSplit t with
    | some (g1, g2) => some (c :: g1, g2)
    | none =>
      if (" b/".data.isPrefixOf (c :: t)) && !((c :: t).drop 3).isEmpty then
        some ([], (c :: t).drop 3)
      else none

/-- Try the pattern `diff --git a\/(.+) b\/(.+)` anchored at the head of
`cs`, returning the second captured group. -/
def matchDiffGitAt (cs : List Char) : Option String :=
  if "diff --git a/".data.isPrefixOf cs then
    match lastBSplit (cs.drop 13) with
    | some (g1, g2) => if g1.isEmpty then none else some (String.mk g2)
    | none => none
  else none

/-- `line.match(/diff --git a\/(.+) b\/(.+)/)`, group 2: leftmost
position at which the pattern matches (the source applies this to
single lines, which contain no newline). -/
def matchDiffGitPath : List Char → Option String
  | [] => none
  | c :: t =>
    match matchDiffGitAt (c :: t) with
    | some p => some p
    | none => matchDiffGitPath t

/-- Rewrite the last pushed hunk — the alias target of `currentHunk` —
appending one line change (`currentHunk.changes.push(...)`). -/
def appendChange (hs : List Hunk) (c : LineChange) : List Hunk :=
  match hs with
  | [] => []
  | [h] => [{ h with changes := h.changes ++ [c] }]
  | h :: t => h :: appendChange t c

/-- The `changeType` classification of a content line inside
`DiffAnalyzer.parseStructuredDiff`. -/
def classifyType (line : String) : String :=
  if strStarts line "+" then "addition"
  else if strStarts line "-" then "deletion"
  else "context"

/-- One iteration of the `for (const line of lines)` loop of
`DiffAnalyzer.parseStructuredDiff`.  The error branches mark the
dereference of `currentHunk` when the aliasing assumption (an open
hunk is the last hunk of the current file) would fail; the totality
theorem shows they are unreachable. -/
def stepLine (s : ParseState) (line : String) : Except String ParseState :=
  if strStarts line "diff --git" then
    Except.ok
      { files := s.files ++ s.currentFile.toList
        currentFile := some
          { path :=
              match matchDiffGitPath line.data with
              | some p => p
              | none => "unknown"
            hunks := []
            isNewFile := false
            isDeletedFile := false }
        hunkOpen := false }
  else if strStarts line "new file mode" then
    Except.ok { s with currentFile := s.currentFile.map (fun f => { f with isNewFile := true }) }
  else if strStarts line "deleted file mode" then
    Except.ok { s with currentFile := s.currentFile.map (fun f => { f with isDeletedFile := true }) }
  else if strStarts line "@@" then
    match s.currentFile with
    | some f =>
      Except.ok { s with
        currentFile := some { f with hunks := f.hunks ++ [{ header := line, changes := [] }] }
        hunkOpen := true }
    | none => Except.ok s
  else if s.hunkOpen && (strStarts line "+" || strStarts line "-" || strStarts line " ") then
    match s.currentFile with
    | some f =>
      match f.hunks with
      | [] => Except.error "null currentHunk"
      | _ :: _ =>
        Except.ok { s with
          currentFile := some
            { f with hunks :=
                appendChange f.hunks ⟨classifyType line, String.mk (line.data.drop 1)⟩ } }
    | none => Except.error "null currentHunk"
  else
    Except.ok s

/-- The loop of `DiffAnalyzer.parseStructuredDiff` over the split
lines. -/
def runLines (s : ParseState) : List String → Except String ParseState
  | [] => Except.ok s
  | l :: ls =>
    match stepLine s l with
    | Except.ok s2 => runLines s2 ls
    | Except.error e => Except.error e

/-- `DiffAnalyzer.parseStructuredDiff` on an already split line list:
run the loop from the empty state and flush the final `currentFile`. -/
def parseLines (ls : List String) : Except String (List FileChange) :=
  match runLines { files := [], currentFile := none, hunkOpen := false } ls with
  | Except.ok s => Except.ok (s.files ++ s.currentFile.toList)
  | Except.error e => Except.error e

/-- `DiffAnalyzer.parseStructuredDiff`: split the raw diff text on
newlines and run the line loop. -/
def parseStructuredDiff (diffOutput : String) : Except String (List FileChange) :=
  parseLines ((splitOnChar (Char.ofNat 10) diffOutput.data).map String.mk)

/-- The aliasing invariant of the parser loop: when a hunk is open, the
current file exists and its hunk list is non-empty. -/
def StateInv (s : ParseState) : Prop :=
  s.hunkOpen = true → ∃ f, s.currentFile = some f ∧ f.hunks ≠ []

theorem appendChange_ne_nil (hs : List Hunk) (c : LineChange) (h : hs ≠ []) :
    appendChange hs c ≠ [] := by
  cases hs with
  | nil => exact absurd rfl h
  | cons a t =>
    cases t <;> simp [appendChange]

theorem stepLine_ok (s : ParseState) (line : String) (hinv : StateInv s) :
    ∃ s2, stepLine s line = Except.ok s2 ∧ StateInv s2 := by
  unfold stepLine
  split_ifs with h1 h2 h3 h4 h5
  · exact ⟨_, rfl, by intro h; simp at h⟩
  · refine ⟨_, rfl, ?_⟩
    intro h
    rcases hinv h with ⟨f, hf, hne⟩
    refine ⟨{ f with isNewFile := true }, ?_, hne⟩
    show s.currentFile.map _ = _
    rw [hf]
    rfl
  · refine ⟨_, rfl, ?_⟩
    intro h
    rcases hinv h with ⟨f, hf, hne⟩
    refine ⟨{ f with isDeletedFile := true }, ?_, hne⟩
    show s.currentFile.map _ = _
    rw [hf]
    rfl
  · rcases hcf : s.currentFile with _ | f
    · exact ⟨_, rfl, hinv⟩
    · refine ⟨_, rfl, ?_⟩
      intro h
      exact ⟨_, rfl, by simp⟩
  · have hopen : s.hunkOpen = true := by
      cases hh : s.hunkOpen
      · rw [hh] at h5; simp at h5
      · rfl
    rcases hinv hopen with ⟨f, hf, hne⟩
    rw [hf]
    dsimp only
    rcases hhs : f.hunks with _ | ⟨a, t⟩
    · exact absurd hhs hne
    · refine ⟨_, rfl, ?_⟩
      intro h
      refine ⟨_, rfl, ?_⟩
      show appendChange (a :: t) _ ≠ []
      exact appendChange_ne_nil (a :: t) _ (by simp)
  · exact ⟨_, rfl, hinv⟩

theorem runLines_ok (ls : List String) (s : ParseState) (hinv : StateInv s) :
    ∃ s2, runLines s ls = Except.ok s2 ∧ StateInv s2 := by
  induction ls generalizing s with
  | nil => exact ⟨s, rfl, hinv⟩
  | cons l t ih =>
    rcases stepLine_ok s l hinv with ⟨s2, hs2, hinv2⟩
    rcases ih s2 hinv2 with ⟨s3, hs3, hinv3⟩
    exact ⟨s3, by simp [runLines, hs2, hs3], hinv3⟩

/-- C6. For every input string — empty or arbitrarily garbled — the
structured-diff parse terminates normally with a (possibly partial or
empty) `FileChange` list: no loop iteration reaches an error state, so
the parser never throws on malformed diff text. -/
theorem parseStructuredDiff_total (input : String) :
    ∃ fileChanges, parseStructuredDiff input = Except.ok fileChanges := by
  unfold parseStructuredDiff parseLines
  rcases runLines_ok ((splitOnChar (Char.ofNat 10) input.data).map String.mk)
      { files := [], currentFile := none, hunkOpen := false }
      (by intro h; simp at h) with ⟨s2, hs2, _⟩
  exact ⟨_, by rw [hs2]⟩

theorem strStarts_nil_data (p : String) (c : Char) (ptl : List Char)
    (hp : p.data = c :: ptl) (s : String) (hs : s.data = []) :
    strStarts s p = false := by
  unfold strStarts
  rw [hp, hs]
  rfl

theorem strStarts_head_ne (s p q : String) (c d : Char) (ptl qtl : List Char)
    (hp : p.data = c :: ptl) (hq : q.data = d :: qtl) (hcd : (d == c) = false)
    (h : strStarts s p = true) : strStarts s q = false := by
  unfold strStarts at *
  rw [hp] at h
  rw [hq]
  revert h
  rcases s.data with _ | ⟨e, rest⟩
  · intro h
    exact absurd h (by simp)
  · intro h
    rw [List.isPrefixOf_cons₂] at h
    rw [List.isPrefixOf_cons₂]
    have hce : c = e := eq_of_beq ((Bool.and_eq_true _ _).mp h).1
    have hde : (d == e) = false := by rw [← hce]; exact hcd
    rw [hde]
    rfl

theorem hunk_line_not_file_header (l : String) (h : strStarts l "@@" = true) :
    strStarts l "diff --git" = false ∧ strStarts l "new file mode" = false ∧
      strStarts l "deleted file mode" = false := by
  refine ⟨?_, ?_, ?_⟩ <;>
    exact strStarts_head_ne l "@@" _ _ _ _ _ rfl rfl (by decide) h

/-- Lines that do not start a new file leave the initial parse state
unchanged: without a current file, hunk headers, file-status lines and
content lines all fall through. -/
theorem stepLine_initState (l : String) (h : strStarts l "diff --git" = false) :
    stepLine { files := [], currentFile := none, hunkOpen := false } l =
      Except.ok { files := [], currentFile := none, hunkOpen := false } := by
  unfold stepLine
  split_ifs with h1 h2 h3 h4 h5
  · rw [h] at h1
    exact absurd h1 (by simp)
  · rfl
  · rfl
  · rfl
  · simp at h5
  · rfl

theorem runLines_initState (pre : List String)
    (hpre : ∀ l ∈ pre, strStarts l "diff --git" = false) :
    runLines { files := [], currentFile := none, hunkOpen := false } pre =
      Except.ok { files := [], currentFile := none, hunkOpen := false } := by
  induction pre with
  | nil => rfl
  | cons l t ih =>
    have hl := hpre l (by simp)
    have ht : ∀ x ∈ t, strStarts x "diff --git" = false := fun x hx => hpre x (by simp [hx])
    simp [runLines, stepLine_initState l hl, ih ht]

theorem runLines_append (xs ys : List String) (s s' : ParseState)
    (h : runLines s xs = Except.ok s') :
    runLines s (xs ++ ys) = runLines s' ys := by
  induction xs generalizing s with
  | nil =>
    simp only [runLines] at h
    cases h
    rfl
  | cons l t ih =>
    simp only [runLines] at h ⊢
    rcases hstep : stepLine s l with e | s2 <;> rw [hstep] at h
    · simp at h
    · exact ih s2 h

/-- C5. A hunk-header line that appears before any file-header line is
silently dropped: the parse of the whole line list equals the parse of
the lines after the orphan hunk header, so no hunk is recorded for it,
the file list gains no spurious entry, and no error is produced. -/
theorem parseLines_orphan_hunk_dropped (pre : List String) (h : String) (rest : List String)
    (hpre : ∀ l ∈ pre, strStarts l "diff --git" = false)
    (hh : strStarts h "@@" = true) :
    parseLines (pre ++ h :: rest) = parseLines rest := by
  rcases hunk_line_not_file_header h hh with ⟨g1, g2, g3⟩
  have hstep : stepLine { files := [], currentFile := none, hunkOpen := false } h =
      Except.ok { files := [], currentFile := none, hunkOpen := false } := by
    unfold stepLine
    rw [g1, g2, g3, hh]
    rfl
  unfold parseLines
  rw [runLines_append pre (h :: rest) _ _ (runLines_initState pre hpre)]
  simp only [runLines, hstep]

/-- Witness for C5: a diff text whose hunk header precedes any file
header parses identically with and without the orphan lines. -/
theorem parseLines_orphan_hunk_dropped_witness :
    parseLines ["index 123..456", "@@ -1,2 +3,4 @@", "diff --git a/x b/x"] =
      parseLines ["diff --git a/x b/x"] :=
  parseLines_orphan_hunk_dropped ["index 123..456"] "@@ -1,2 +3,4 @@"
    ["diff --git a/x b/x"] (by decide) (by decide)

/-- A content line of a hunk body: first character `+`, `-` or space. -/
def isContentLine (l : String) : Bool :=
  strStarts l "+" || strStarts l "-" || strStarts l " "

/-- Strip a literal from the front of a character list. -/
def stripLit (lit cs : List Char) : Option (List Char) :=
  if lit.isPrefixOf cs then some (cs.drop lit.length) else none

/-- A non-empty leading digit run and its value. -/
def digits1 (cs : List Char) : Option (Nat × List Char) :=
  let ds := cs.takeWhile isDigitC
  if ds.isEmpty then none else some (natOfDigits ds, cs.drop ds.length)

/-- An optional `,count` range suffix; a missing count defaults to 1 as
in the unified-diff format. -/
def optCount (cs : List Char) : Nat × List Char :=
  match cs with
  | c :: t =>
    if c = ',' then
      match digits1 t with
      | some (n, r) => (n, r)
      | none => (1, c :: t)
    else (1, c :: t)
  | [] => (1, [])

/-- Declared ranges of a hunk header, from the spec: the header has the
shape `@@ -oldStart,oldCount +newStart,newCount @@` (counts defaulting
to 1).  The source stores the raw header without parsing it; this
extractor states the spec's additivity invariant. -/
def parseHunkHeader (header : String) : Option (Nat × Nat × Nat × Nat) :=
  match stripLit "@@ -".data header.data with
  | none => none
  | some r0 =>
    match digits1 r0 with
    | none => none
    | some (a, r1) =>
      let bb := optCount r1
      match stripLit " +".data bb.2 with
      | none => none
      | some r3 =>
        match digits1 r3 with
        | none => none
        | some (c, r4) =>
          let dd := optCount r4
          match stripLit " @@".data dd.2 with
          | none => none
          | some _ => some (a, bb.1, c, dd.1)

/-- Number of new-side lines (`+` or context) in a hunk body. -/
def countNewSide (body : List String) : Nat :=
  (body.filter (fun l => strStarts l "+" || strStarts l " ")).length

/-- Number of old-side lines (`-` or context) in a hunk body. -/
def countOldSide (body : List String) : Nat :=
  (body.filter (fun l => strStarts l "-" || strStarts l " ")).length

/-- Additions plus context lines recorded in a parsed hunk. -/
def addCtxCount (h : Hunk) : Nat :=
  (h.changes.filter (fun c => c.type == "addition" || c.type == "context")).length

/-- Deletions plus context lines recorded in a parsed hunk. -/
def delCtxCount (h : Hunk) : Nat :=
  (h.changes.filter (fun c => c.type == "deletion" || c.type == "context")).length

/-- The `LineChange` the parser records for a content line. -/
def recordOf (l : String) : LineChange :=
  { type := classifyType l, content := String.mk (l.data.drop 1) }

theorem content_line_not_marker (l : String) (h : isContentLine l = true) :
    strStarts l "diff --git" = false ∧ strStarts l "new file mode" = false ∧
      strStarts l "deleted file mode" = false ∧ strStarts l "@@" = false := by
  have h3 : (strStarts l "+" = true ∨ strStarts l "-" = true) ∨ strStarts l " " = true := by
    have := h
    unfold isContentLine at this
    simpa using this
  rcases h3 with (h2 | h2) | h1
  · exact ⟨strStarts_head_ne l "+" _ _ _ _ _ rfl rfl (by decide) h2,
      strStarts_head_ne l "+" _ _ _ _ _ rfl rfl (by decide) h2,
      strStarts_head_ne l "+" _ _ _ _ _ rfl rfl (by decide) h2,
      strStarts_head_ne l "+" _ _ _ _ _ rfl rfl (by decide) h2⟩
  · exact ⟨strStarts_head_ne l "-" _ _ _ _ _ rfl rfl (by decide) h2,
      strStarts_head_ne l "-" _ _ _ _ _ rfl rfl (by decide) h2,
      strStarts_head_ne l "-" _ _ _ _ _ rfl rfl (by decide) h2,
      strStarts_head_ne l "-" _ _ _ _ _ rfl rfl (by decide) h2⟩
  · exact ⟨strStarts_head_ne l " " _ _ _ _ _ rfl rfl (by decide) h1,
      strStarts_head_ne l " " _ _ _ _ _ rfl rfl (by decide) h1,
      strStarts_head_ne l " " _ _ _ _ _ rfl rfl (by decide) h1,
      strStarts_head_ne l " " _ _ _ _ _ rfl rfl (by decide) h1⟩

theorem stepLine_hunkHeader (fs : List FileChange) (f : FileChange) (ho : Bool)
    (hdr : String) (hh : strStarts hdr "@@" = true) :
    stepLine { files := fs, currentFile := some f, hunkOpen := ho } hdr =
      Except.ok
        { files := fs,
          currentFile := some { f with hunks := f.hunks ++ [{ header := hdr, changes := [] }] },
          hunkOpen := true } := by
  rcases hunk_line_not_file_header hdr hh with ⟨g1, g2, g3⟩
  unfold stepLine
  rw [g1, g2, g3, hh]
  rfl

theorem stepLine_content (fs : List FileChange) (p hdr : String) (n d : Bool)
    (cs : List LineChange) (l : String) (hl : isContentLine l = true) :
    stepLine
      { files := fs,
        currentFile := some
          { path := p, hunks := [{ header := hdr, changes := cs }],
            isNewFile := n, isDeletedFile := d },
        hunkOpen := true } l =
      Except.ok
        { files := fs,
          currentFile := some
            { path := p, hunks := [{ header := hdr, changes := cs ++ [recordOf l] }],
              isNewFile := n, isDeletedFile := d },
          hunkOpen := true } := by
  rcases content_line_not_marker l hl with ⟨m1, m2, m3, m4⟩
  have hl2 : (strStarts l "+" || strStarts l "-" || strStarts l " ") = true := hl
  unfold stepLine
  rw [m1, m2, m3, m4, hl2]
  rfl

theorem runLines_body (fs : List FileChange) (p hdr : String) (n d : Bool)
    (cs : List LineChange) (body : List String)
    (hb : ∀ l ∈ body, isContentLine l = true) :
    runLines
      { files := fs,
        currentFile := some
          { path := p, hunks := [{ header := hdr, changes := cs }],
            isNewFile := n, isDeletedFile := d },
        hunkOpen := true } body =
      Except.ok
        { files := fs,
          currentFile := some
            { path := p, hunks := [{ header := hdr, changes := cs ++ body.map recordOf }],
              isNewFile := n, isDeletedFile := d },
          hunkOpen := true } := by
  induction body generalizing cs with
  | nil => simp [runLines]
  | cons l t ih =>
    have hl := hb l (by simp)
    have ht : ∀ x ∈ t, isContentLine x = true := fun x hx => hb x (by simp [hx])
    simp only [runLines, stepLine_content fs p hdr n d cs l hl]
    rw [ih (cs ++ [recordOf l]) ht]
    simp

theorem classify_newSide (l : String) (hl : isContentLine l = true) :
    (classifyType l == "addition" || classifyType l == "context") =
      (strStarts l "+" || strStarts l " ") := by
  unfold classifyType
  cases hp : strStarts l "+"
  · cases hm : strStarts l "-"
    · have hsp : strStarts l " " = true := by
        have h3 : (strStarts l "+" = true ∨ strStarts l "-" = true) ∨ strStarts l " " = true := by
          have := hl
          unfold isContentLine at this
          simpa using this
        rcases h3 with (h2 | h2) | h1
        · rw [hp] at h2; exact absurd h2 (by simp)
        · rw [hm] at h2; exact absurd h2 (by simp)
        · exact h1
      simp [hp, hm, hsp]
    · have hsp : strStarts l " " = false :=
        strStarts_head_ne l "-" _ _ _ _ _ rfl rfl (by decide) hm
      simp [hp, hm, hsp]
  · simp [hp]

theorem classify_oldSide (l : String) (hl : isContentLine l = true) :
    (classifyType l == "deletion" || classifyType l == "context") =
      (strStarts l "-" || strStarts l " ") := by
  unfold classifyType
  cases hp : strStarts l "+"
  · cases hm : strStarts l "-"
    · have hsp : strStarts l " " = true := by
        have h3 : (strStarts l "+" = true ∨ strStarts l "-" = true) ∨ strStarts l " " = true := by
          have := hl
          unfold isContentLine at this
          simpa using this
        rcases h3 with (h2 | h2) | h1
        · rw [hp] at h2; exact absurd h2 (by simp)
        · rw [hm] at h2; exact absurd h2 (by simp)
        · exact h1
      simp [hp, hm, hsp]
    · have hsp : strStarts l " " = false :=
        strStarts_head_ne l "-" _ _ _ _ _ rfl rfl (by decide) hm
      simp [hp, hm, hsp]
  · have hm : strStarts l "-" = false :=
      strStarts_head_ne l "+" _ _ _ _ _ rfl rfl (by decide) hp
    have hsp : strStarts l " " = false :=
      strStarts_head_ne l "+" _ _ _ _ _ rfl rfl (by decide) hp
    simp [hp, hm, hsp]

theorem addCtxCount_map (hdr : String) (body : List String)
    (hb : ∀ l ∈ body, isContentLine l = true) :
    addCtxCount { header := hdr, changes := body.map recordOf } = countNewSide body := by
  unfold addCtxCount countNewSide
  induction body with
  | nil => rfl
  | cons l t ih =>
    have hl := hb l (by simp)
    have ht : ∀ x ∈ t, isContentLine x = true := fun x hx => hb x (by simp [hx])
    simp only [List.map_cons, List.filter_cons, recordOf]
    rw [classify_newSide l hl]
    cases hcond : (strStarts l "+" || strStarts l " ") <;>
      simp [ih ht]

theorem delCtxCount_map (hdr : String) (body : List String)
    (hb : ∀ l ∈ body, isContentLine l = true) :
    delCtxCount { header := hdr, changes := body.map recordOf } = countOldSide body := by
  unfold delCtxCount countOldSide
  induction body with
  | nil => rfl
  | cons l t ih =>
    have hl := hb l (by simp)
    have ht : ∀ x ∈ t, isContentLine x = true := fun x hx => hb x (by simp [hx])
    simp only [List.map_cons, List.filter_cons, recordOf]
    rw [classify_oldSide l hl]
    cases hcond : (strStarts l "-" || strStarts l " ") <;>
      simp [ih ht]

theorem parseHunkHeader_starts (hdr : String) (a b c d : Nat)
    (h : parseHunkHeader hdr = some (a, b, c, d)) : strStarts hdr "@@" = true := by
  unfold parseHunkHeader at h
  rcases hs : stripLit "@@ -".data hdr.data with _ | r0 <;> rw [hs] at h
  · exact absurd h (by simp)
  · unfold stripLit at hs
    split_ifs at hs with hpre
    unfold strStarts
    have hp : "@@ -".data <+: hdr.data := List.isPrefixOf_iff_prefix.mp hpre
    rcases hp with ⟨t, ht⟩
    rw [← ht]
    show ("@@".data).isPrefixOf ("@@ -".data ++ t) = true
    rw [List.isPrefixOf_iff_prefix]
    exact ⟨" -".data ++ t, by simp⟩

/-- C8 (amended).  The parser records exactly one `LineChange` per
content line of a hunk body and never validates the body against the
header ranges; consequently, for inputs whose hunk body agrees with the
declared counts — every well-formed diff — the parsed hunk satisfies
the additivity invariant: addition+context lines equal the declared
new-range count and deletion+context lines equal the declared old-range
count. -/
theorem parseLines_hunk_additivity (hdr : String) (body : List String) (a b c d : Nat)
    (hhdr : parseHunkHeader hdr = some (a, b, c, d))
    (hb : ∀ l ∈ body, isContentLine l = true)
    (hnew : countNewSide body = d)
    (hold : countOldSide body = b) :
    parseLines ("diff --git a/x b/x" :: hdr :: body) =
      Except.ok
        [{ path := "x", hunks := [{ header := hdr, changes := body.map recordOf }],
           isNewFile := false, isDeletedFile := false }] ∧
    addCtxCount { header := hdr, changes := body.map recordOf } = d ∧
    delCtxCount { header := hdr, changes := body.map recordOf } = b := by
  have hstart := parseHunkHeader_starts hdr a b c d hhdr
  refine ⟨?_, by rw [addCtxCount_map hdr body hb]; exact hnew,
    by rw [delCtxCount_map hdr body hb]; exact hold⟩
  unfold parseLines
  have s1 : stepLine { files := [], currentFile := none, hunkOpen := false }
      "diff --git a/x b/x" =
      Except.ok
        { files := [],
          currentFile := some
            { path := "x", hunks := [], isNewFile := false, isDeletedFile := false },
          hunkOpen := false } := by rfl
  have s2 := stepLine_hunkHeader []
    { path := "x", hunks := [], isNewFile := false, isDeletedFile := false } false hdr hstart
  have s3 := runLines_body [] "x" hdr false false [] body hb
  simp only [runLines, s1, s2, List.nil_append]
  simp only [List.nil_append] at s3
  rw [s3]
  rfl

/-- Witness for C8 at a concrete well-formed hunk. -/
theorem parseLines_hunk_additivity_witness :
    parseLines ("diff --git a/x b/x" :: "@@ -1,2 +3,4 @@" ::
        [" a", "+b", "+c", "+d", "-e"]) =
      Except.ok
        [{ path := "x",
           hunks := [{ header := "@@ -1,2 +3,4 @@",
                       changes := [" a", "+b", "+c", "+d", "-e"].map recordOf }],
           isNewFile := false, isDeletedFile := false }] ∧
    addCtxCount
      { header := "@@ -1,2 +3,4 @@",
        changes := [" a", "+b", "+c", "+d", "-e"].map recordOf } = 4 ∧
    delCtxCount
      { header := "@@ -1,2 +3,4 @@",
        changes := [" a", "+b", "+c", "+d", "-e"].map recordOf } = 2 :=
  parseLines_hunk_additivity "@@ -1,2 +3,4 @@" [" a", "+b", "+c", "+d", "-e"]
    1 2 3 4 (by rfl) (by decide) (by rfl) (by rfl)

/-- C8 counterexample: on a malformed input whose hunk body does not
match its header, the parser happily records the body as-is, so the
additivity invariant fails for a parser-produced `FileChange`: the
header declares a new-range count of 5 but only one addition/context
line is recorded. -/
theorem parseLines_hunk_additivity_counterexample :
    parseLines ["diff --git a/x b/x", "@@ -1,5 +1,5 @@", "+foo"] =
      Except.ok
        [{ path := "x",
           hunks := [{ header := "@@ -1,5 +1,5 @@",
                       changes := [{ type := "addition", content := "foo" }] }],
           isNewFile := false, isDeletedFile := false }] ∧
    parseHunkHeader "@@ -1,5 +1,5 @@" = some (1, 5, 1, 5) ∧
    addCtxCount
      { header := "@@ -1,5 +1,5 @@",
        changes := [{ type := "addition", content := "foo" }] } = 1 ∧
    (1 : Nat) ≠ 5 := by
  exact ⟨by rfl, by rfl, by rfl, by decide⟩

/-- Opening brace character (the string rules of this development write
braces in string literals by code point). -/
def braceOpenC : Char := Char.ofNat 123

/-- Closing brace character. -/
def braceCloseC : Char := Char.ofNat 125

/-- Double-quote character. -/
def quoteDC : Char := Char.ofNat 34

/-- Single-quote character. -/
def quoteSC : Char := Char.ofNat 39

/-- Try the method pattern `async\s+(\w+)\s*\([^)]*\):\s*Promise<[^>]+>`
anchored at the head of `cs`; returns (group 1, group 2, rest after the
match).  The greedy classes have disjoint follow sets, so maximal munch
realizes the regex semantics. -/
def matchAsyncAt (cs : List Char) : Option (String × String × List Char) :=
  match stripLit "async".data cs with
  | none => none
  | some r0 =>
    let ws1 := r0.takeWhile isWSC
    if ws1.isEmpty then none
    else
      let r1 := r0.drop ws1.length
      let name := r1.takeWhile isWordC
      if name.isEmpty then none
      else
        let r2 := (r1.drop name.length).dropWhile isWSC
        match stripLit "(".data r2 with
        | none => none
        | some r3 =>
          let params := r3.takeWhile (fun c => c ≠ ')')
          match stripLit "):".data (r3.drop params.length) with
          | none => none
          | some r4 =>
            let r5 := r4.dropWhile isWSC
            match stripLit "Promise<".data r5 with
            | none => none
            | some r6 =>
              let rt := r6.takeWhile (fun c => c ≠ '>')
              if rt.isEmpty then none
              else
                match stripLit ">".data (r6.drop rt.length) with
                | none => none
                | some r7 => some (String.mk name, String.mk rt, r7)

/-- The repeated-`exec` loop over the method regex: leftmost matches,
resuming after each match; `fuel` bounds the scan by the input length. -/
def scanAsync : Nat → List Char → List (String × String)
  | 0, _ => []
  | _ + 1, [] => []
  | fuel + 1, c :: t =>
    match matchAsyncAt (c :: t) with
    | some (name, rt, rest) => (name, rt) :: scanAsync fuel rest
    | none => scanAsync fuel t

/-- `EndpointDescriptor` as built by `ChangeAnalyzer.extractEndpoints`:
only the method name and the kind tag are recorded. -/
structure Endpoint where
  method : String
  type : String
deriving DecidableEq, Repr

/-- `ChangeAnalyzer.extractEndpoints`: collect `async` method
declarations with a typed `Promise` return from file content. -/
def extractEndpoints (content : String) : List Endpoint :=
  (scanAsync (content.data.length + 1) content.data).map
    (fun m => { method := m.1, type := "api-method" })

/-- An import record of `ChangeAnalyzer.analyzeClientFile`: the raw
source path of the import and the named symbols bound by it. -/
structure ImportRecord where
  path : String
  types : List String
deriving DecidableEq, Repr

/-- An exported method signature of `ChangeAnalyzer.analyzeClientFile`. -/
structure MethodSig where
  name : String
  returnType : String
deriving DecidableEq, Repr

/-- Try the import pattern
`import\s+\x7b([^\x7d]+)\x7d\s+from\s+[quote](\.\.\/generated[^quote]*)[quote]`
anchored at the head of `cs`. -/
def matchImportAt (cs : List Char) : Option (ImportRecord × List Char) :=
  match stripLit "import".data cs with
  | none => none
  | some r0 =>
    let ws1 := r0.takeWhile isWSC
    if ws1.isEmpty then none
    else
      match r0.drop ws1.length with
      | [] => none
      | c1 :: r1 =>
        if c1 = braceOpenC then
          let g1 := r1.takeWhile (fun c => c ≠ braceCloseC)
          if g1.isEmpty then none
          else
            match r1.drop g1.length with
            | [] => none
            | _ :: r2 =>
              let ws2 := r2.takeWhile isWSC
              if ws2.isEmpty then none
              else
                match stripLit "from".data (r2.drop ws2.length) with
                | none => none
                | some r3 =>
                  let ws3 := r3.takeWhile isWSC
                  if ws3.isEmpty then none
                  else
                    match r3.drop ws3.length with
                    | [] => none
                    | q :: r4 =>
                      if q = quoteDC || q = quoteSC then
                        match stripLit "../generated".data r4 with
                        | none => none
                        | some r5 =>
                          let g2tail := r5.takeWhile
                            (fun c => !(c = quoteDC || c = quoteSC))
                          match r5.drop g2tail.length with
                          | [] => none
                          | _ :: r6 =>
                            some
                              ({ path := String.mk ("../generated".data ++ g2tail),
                                 types := (splitOnChar ',' g1).map
                                   (fun t => String.mk (trimChars t)) }, r6)
                      else none
        else none

/-- The repeated-`exec` loop over the import regex. -/
def scanImports : Nat → List Char → List ImportRecord
  | 0, _ => []
  | _ + 1, [] => []
  | fuel + 1, c :: t =>
    match matchImportAt (c :: t) with
    | some (rec, rest) => rec :: scanImports fuel rest
    | none => scanImports fuel t

/-- A changed file parsed from `git status --porcelain`
(`ChangeAnalyzer.parseGitStatus`). -/
structure GitFile where
  status : String
  path : String
  rawStatus : String
deriving DecidableEq, Repr

/-- The per-client analysis record of `ChangeAnalyzer.analyzeClientFile`. -/
structure ClientAnalysis where
  file : String
  affectedImports : List ImportRecord
  imports : List ImportRecord
  methods : List MethodSig
  riskLevel : RiskLevel
deriving DecidableEq, Repr

/-- `ChangeAnalyzer.analyzeClientFile`: extract the generated-code
dependencies and method signatures of one client file, mark the
records whose stripped path occurs in some changed generated file's
path, and grade the file by the number of affected import records. -/
def analyzeClientFile (filePath : String) (content : String)
    (changedGeneratedFiles : List GitFile) : ClientAnalysis :=
  let imports := scanImports (content.data.length + 1) content.data
  let methods := (scanAsync (content.data.length + 1) content.data).map
    (fun m => { name := m.1, returnType := m.2 })
  let affectedImports := imports.filter (fun imp =>
    changedGeneratedFiles.any (fun change =>
      containsSub change.path.data (replaceFirstSub "../generated/".data [] imp.path.data)))
  let riskLevel :=
    if affectedImports.length ≥ 5 then RiskLevel.HIGH
    else if affectedImports.length ≥ 2 then RiskLevel.MEDIUM
    else RiskLevel.LOW
  { file := filePath, affectedImports := affectedImports, imports := imports,
    methods := methods, riskLevel := riskLevel }

/-- C4 (amended).  A client file's risk tier is graded by the number of
affected import records — import statements whose source path matches a
changed generated file — with HIGH iff at least 5, MEDIUM iff at least
2 and below 5, LOW otherwise.  The count is of import statements, not
of imported symbols: five symbols bound by a single affected import
statement count as one (see the counterexample). -/
theorem analyzeClientFile_risk_thresholds (filePath content : String)
    (changed : List GitFile) :
    ((analyzeClientFile filePath content changed).riskLevel = RiskLevel.HIGH ↔
      5 ≤ (analyzeClientFile filePath content changed).affectedImports.length) ∧
    ((analyzeClientFile filePath content changed).riskLevel = RiskLevel.MEDIUM ↔
      2 ≤ (analyzeClientFile filePath content changed).affectedImports.length ∧
        (analyzeClientFile filePath content changed).affectedImports.length < 5) ∧
    ((analyzeClientFile filePath content changed).riskLevel = RiskLevel.LOW ↔
      (analyzeClientFile filePath content changed).affectedImports.length < 2) := by
  unfold analyzeClientFile
  dsimp only
  split_ifs with h1 h2 <;> refine ⟨?_, ?_, ?_⟩ <;> simp_all <;> omega

/-- C4 counterexample: a wrapper file importing five distinct named
symbols through a single import statement from a changed generated file
has one affected import record, hence tier LOW, not HIGH. -/
theorem analyzeClientFile_five_symbols_counterexample :
    (analyzeClientFile "users.ts"
        "import \x7b A, B, C, D, E \x7d from \"../generated/models\""
        [{ status := "modified", path := "src/generated/models.ts", rawStatus := "M" }]).affectedImports =
      [{ path := "../generated/models", types := ["A", "B", "C", "D", "E"] }] ∧
    (["A", "B", "C", "D", "E"] : List String).Nodup ∧
    (analyzeClientFile "users.ts"
        "import \x7b A, B, C, D, E \x7d from \"../generated/models\""
        [{ status := "modified", path := "src/generated/models.ts", rawStatus := "M" }]).riskLevel =
      RiskLevel.LOW ∧
    RiskLevel.LOW ≠ RiskLevel.HIGH := by
  refine ⟨by rfl, by decide, by rfl, by decide⟩

/-- Alphabetical (lexicographic, by code point) strict order on
character lists, stating the spec's "alphabetical by path". -/
def lexLt : List Char → List Char → Bool
  | [], [] => false
  | [], _ :: _ => true
  | _ :: _, [] => false
  | a :: as, b :: bs =>
    if a.toNat < b.toNat then true
    else if b.toNat < a.toNat then false
    else lexLt as bs

/-- `path.join(dir, name)` for a directory and a simple file name. -/
def pathJoin (dir name : String) : String :=
  dir ++ "/" ++ name

/-- The wrapper-impact record of `ChangeAnalyzer.analyzeWrapperImpact`. -/
structure WrapperImpact where
  affectedClients : List ClientAnalysis
  totalClients : Nat
  riskLevel : RiskLevel
deriving DecidableEq, Repr

/-- `ChangeAnalyzer.analyzeWrapperImpact`: iterate over the client
directory listing in its given order, analyze each `.ts` (non-test)
file, and push the analyses with a non-empty affected-import list. -/
def analyzeWrapperImpact (clientDir : String) (clientFiles : List (String × String))
    (changedGeneratedFiles : List GitFile) : WrapperImpact :=
  let tsFiles := clientFiles.filter
    (fun f => strEnds f.1 ".ts" && !(containsSub f.1.data ".test.".data))
  let affectedClients := tsFiles.foldl
    (fun acc f =>
      let clientAnalysis := analyzeClientFile (pathJoin clientDir f.1) f.2 changedGeneratedFiles
      if clientAnalysis.affectedImports.length > 0 then acc ++ [clientAnalysis] else acc)
    []
  let riskLevel :=
    if affectedClients.length > 0 then
      if 0 < (affectedClients.filter (fun c => c.riskLevel == RiskLevel.HIGH)).length then
        RiskLevel.HIGH
      else RiskLevel.MEDIUM
    else RiskLevel.LOW
  { affectedClients := affectedClients, totalClients := tsFiles.length, riskLevel := riskLevel }

instance : BEq RiskLevel := ⟨fun a b => decide (a = b)⟩

theorem foldl_push_filter {α β : Type} (g : α → β) (p : β → Prop) [DecidablePred p]
    (l : List α) (acc : List β) :
    l.foldl (fun a x => if p (g x) then a ++ [g x] else a) acc =
      acc ++ (l.map g).filter (fun b => decide (p b)) := by
  induction l generalizing acc with
  | nil => simp
  | cons x t ih =>
    simp only [List.foldl_cons, List.map_cons, List.filter_cons]
    by_cases hp : p (g x)
    · rw [if_pos hp, ih]
      simp [hp]
    · rw [if_neg hp, ih]
      simp [hp]

/-- C3 (amended).  The affected-client list follows the input iteration
order of the client-file listing: it is exactly the order-preserving
filter of the per-file analyses, with no sorting step, so it is
alphabetical only when the input enumeration already is (a `readdir`
order is not guaranteed to be). -/
theorem analyzeWrapperImpact_input_order (clientDir : String)
    (clientFiles : List (String × String)) (changed : List GitFile) :
    (analyzeWrapperImpact clientDir clientFiles changed).affectedClients =
      ((clientFiles.filter
          (fun f => strEnds f.1 ".ts" && !(containsSub f.1.data ".test.".data))).map
        (fun f => analyzeClientFile (pathJoin clientDir f.1) f.2 changed)).filter
        (fun a => a.affectedImports.length > 0) := by
  unfold analyzeWrapperImpact
  dsimp only
  rw [foldl_push_filter
    (fun f : String × String => analyzeClientFile (pathJoin clientDir f.1) f.2 changed)
    (fun a => a.affectedImports.length > 0)]
  simp

/-- C3 counterexample: with both client files affected and the input
enumeration in the order `b.ts`, `a.ts`, the affected-client list keeps
that order, which is not alphabetical since
`./src/client/a.ts < ./src/client/b.ts`. -/
theorem analyzeWrapperImpact_order_counterexample :
    ((analyzeWrapperImpact "./src/client"
        [("b.ts", "import \x7b X \x7d from \"../generated/models\""),
         ("a.ts", "import \x7b X \x7d from \"../generated/models\"")]
        [{ status := "modified", path := "src/generated/models.ts", rawStatus := "M" }]).affectedClients.map
      (fun a => a.file)) = ["./src/client/b.ts", "./src/client/a.ts"] ∧
    lexLt "./src/client/a.ts".data "./src/client/b.ts".data = true := by
  refine ⟨by rfl, by rfl⟩

/-- The generated-code analysis record of
`ChangeAnalyzer.analyzeGeneratedChanges` (success path): the `.ts`
listings of the `apis` and `models` directories and the endpoint
descriptors extracted from every listed API file. -/
structure GeneratedAnalysis where
  apiFiles : List String
  modelFiles : List String
  newEndpoints : List Endpoint
deriving DecidableEq, Repr

/-- `ChangeAnalyzer.analyzeGeneratedChanges` on a snapshot: `apiDir` is
the `apis` directory listing with file contents, `modelDir` the
`models` directory listing.  `apiFiles` is the set of `.ts` files that
exist in the snapshot, and the endpoints of each are pushed onto
`newEndpoints` in listing order. -/
def analyzeGeneratedChanges (apiDir : List (String × String)) (modelDir : List String) :
    GeneratedAnalysis :=
  let apiFiles := (apiDir.map Prod.fst).filter (fun f => strEnds f ".ts")
  let newEndpoints := (apiDir.filter (fun f => strEnds f.1 ".ts")).foldl
    (fun acc f => acc ++ extractEndpoints f.2) []
  { apiFiles := apiFiles
    modelFiles := modelDir.filter (fun f => strEnds f ".ts")
    newEndpoints := newEndpoints }

theorem foldl_append_flatten {α β : Type} (g : α → List β) (l : List α) (acc : List β) :
    l.foldl (fun a x => a ++ g x) acc = acc ++ (l.map g).flatten := by
  induction l generalizing acc with
  | nil => simp
  | cons x t ih =>
    simp only [List.foldl_cons, List.map_cons, List.flatten_cons]
    rw [ih]
    simp

theorem extractEndpoints_type (content : String) (e : Endpoint)
    (he : e ∈ extractEndpoints content) : e.type = "api-method" := by
  unfold extractEndpoints at he
  rcases List.mem_map.mp he with ⟨m, _, hm⟩
  rw [← hm]

/-- C9 (amended).  An `EndpointDescriptor` records only the method name
and the kind tag `api-method`: the declaring file path is not part of
the descriptor, so the aggregated `newEndpoints` list depends only on
which listed files pass the `.ts` filter and on their contents — two
snapshots whose listings agree up to file names produce identical
descriptor lists, and equally-named methods from different files are
indistinguishable. -/
theorem newEndpoints_ignore_file_names (apiDir apiDir' : List (String × String))
    (modelDir modelDir' : List String)
    (h : apiDir.map (fun f => (strEnds f.1 ".ts", f.2)) =
      apiDir'.map (fun f => (strEnds f.1 ".ts", f.2))) :
    (analyzeGeneratedChanges apiDir modelDir).newEndpoints =
      (analyzeGeneratedChanges apiDir' modelDir').newEndpoints ∧
    ∀ e ∈ (analyzeGeneratedChanges apiDir modelDir).newEndpoints, e.type = "api-method" := by
  constructor
  · unfold analyzeGeneratedChanges
    dsimp only
    rw [foldl_append_flatten (fun f : String × String => extractEndpoints f.2),
      foldl_append_flatten (fun f : String × String => extractEndpoints f.2)]
    simp only [List.nil_append]
    induction apiDir generalizing apiDir' with
    | nil =>
      cases apiDir' with
      | nil => rfl
      | cons y t' => exact absurd h (by simp)
    | cons x t ih =>
      cases apiDir' with
      | nil => exact absurd h (by simp)
      | cons y t' =>
        simp only [List.map_cons, List.cons.injEq, Prod.mk.injEq] at h
        rcases h with ⟨⟨hts, hcontent⟩, htail⟩
        cases hy : strEnds y.1 ".ts"
        · rw [hy] at hts
          simp [List.filter_cons, hts, hy, ih t' htail]
        · rw [hy] at hts
          simp [List.filter_cons, hts, hy, hcontent, List.flatten_cons, ih t' htail]
  · intro e he
    unfold analyzeGeneratedChanges at he
    dsimp only at he
    rw [foldl_append_flatten (fun f : String × String => extractEndpoints f.2)] at he
    simp only [List.nil_append, List.mem_flatten, List.mem_map] at he
    rcases he with ⟨l, ⟨f, _, hfl⟩, hel⟩
    exact extractEndpoints_type f.2 e (hfl ▸ hel)

/-- Witness for C9 at concrete snapshots with different file names and
equal contents. -/
theorem newEndpoints_ignore_file_names_witness :
    (analyzeGeneratedChanges
        [("UsersApi.ts", "async getUser(id: string): Promise<User>")] []).newEndpoints =
      (analyzeGeneratedChanges
        [("QuestionsApi.ts", "async getUser(id: string): Promise<User>")] []).newEndpoints ∧
    ∀ e ∈ (analyzeGeneratedChanges
        [("UsersApi.ts", "async getUser(id: string): Promise<User>")] []).newEndpoints,
      e.type = "api-method" :=
  newEndpoints_ignore_file_names
    [("UsersApi.ts", "async getUser(id: string): Promise<User>")]
    [("QuestionsApi.ts", "async getUser(id: string): Promise<User>")]
    [] [] (by rfl)

/-- C9 counterexample: two different API files declaring the same
method name produce two identical descriptors — nothing distinguishes
them, because the descriptor has no file field. -/
theorem newEndpoints_duplicate_counterexample :
    (analyzeGeneratedChanges
        [("A.ts", "async getUser(id: string): Promise<User>"),
         ("B.ts", "async getUser(id: string): Promise<User>")] []).newEndpoints =
      [{ method := "getUser", type := "api-method" },
       { method := "getUser", type := "api-method" }] ∧
    (analyzeGeneratedChanges
        [("A.ts", "async getUser(id: string): Promise<User>"),
         ("B.ts", "async getUser(id: string): Promise<User>")] []).newEndpoints[0]? =
      (analyzeGeneratedChanges
        [("A.ts", "async getUser(id: string): Promise<User>"),
         ("B.ts", "async getUser(id: string): Promise<User>")] []).newEndpoints[1]? := by
  refine ⟨by rfl, by rfl⟩

/-- `ChangeAnalyzer.interpretGitStatus`: map porcelain status codes to
names, defaulting to `unknown`. -/
def interpretGitStatus (status : String) : String :=
  if status = "A" then "added"
  else if status = "M" then "modified"
  else if status = "D" then "deleted"
  else if status = "R" then "renamed"
  else if status = "C" then "copied"
  else if status = "??" then "untracked"
  else "unknown"

/-- `ChangeAnalyzer.parseGitStatus`: split the porcelain output on
newlines, keep non-blank lines, read the two status columns and the
path after column 3. -/
def parseGitStatus (statusOutput : String) : List GitFile :=
  (((splitOnChar (Char.ofNat 10) statusOutput.data).map String.mk).filter
      (fun line => !(trimChars line.data).isEmpty)).map
    (fun line =>
      let status := String.mk (trimChars (line.data.take 2))
      { status := interpretGitStatus status
        path := String.mk (line.data.drop 3)
        rawStatus := status })

/-- The git-change summary of `ChangeAnalyzer.getGitChanges` (success
path; the `filesByStatus` grouping and the name-status diff summary are
not consumed by the risk assessment). -/
structure GitChanges where
  totalFiles : Nat
  generatedFiles : List GitFile
  clientFiles : List GitFile
  otherFiles : List GitFile
deriving DecidableEq, Repr

/-- `ChangeAnalyzer.getGitChanges` on a porcelain status output. -/
def getGitChanges (statusOutput : String) : GitChanges :=
  let files := parseGitStatus statusOutput
  { totalFiles := files.length
    generatedFiles := files.filter (fun f => containsSub f.path.data "generated/".data)
    clientFiles := files.filter (fun f => containsSub f.path.data "client/".data)
    otherFiles := files.filter (fun f =>
      !containsSub f.path.data "generated/".data && !containsSub f.path.data "client/".data) }

/-- The analysis bundle of `ChangeAnalyzer.analyzeChanges` (without the
timestamp). -/
structure Analysis where
  gitChanges : GitChanges
  generatedCodeChanges : GeneratedAnalysis
  wrapperImpact : WrapperImpact
  riskAssessment : RiskAssessment
deriving DecidableEq, Repr

/-- `ChangeAnalyzer.analyzeChanges`: run the three analyses over the
supplied snapshot — the porcelain status output, the generated `apis`
and `models` directory snapshots, and the client directory snapshot —
then assess risk from (total changed files, affected client count,
`apiFiles` count). -/
def analyzeChanges (statusOutput : String) (apiDir : List (String × String))
    (modelDir : List String) (clientDir : String)
    (clientFiles : List (String × String)) : Analysis :=
  let gitChanges := getGitChanges statusOutput
  let generatedCodeChanges := analyzeGeneratedChanges apiDir modelDir
  let wrapperImpact := analyzeWrapperImpact clientDir clientFiles gitChanges.generatedFiles
  let riskAssessment := assessRisk gitChanges.totalFiles
    wrapperImpact.affectedClients.length generatedCodeChanges.apiFiles.length
  { gitChanges := gitChanges, generatedCodeChanges := generatedCodeChanges,
    wrapperImpact := wrapperImpact, riskAssessment := riskAssessment }

theorem assessRisk_factors_eq (t a g : Nat) :
    (assessRisk t a g).factors =
      { totalFiles := t, affectedClients := a, generatedChanges := g } := by
  unfold assessRisk
  dsimp only
  generalize riskScore t a g = s
  split
  · rfl
  · split <;> rfl

/-- C2 (amended).  The generated-API factor recorded in the risk
assessment — the count awarded the `>10 → +2` and `>5 → +1` points — is
the number of `.ts` files present in the generated `apis` directory
snapshot, not the number of generated-API files changed by the current
diff. -/
theorem generatedChanges_factor_is_snapshot_count (statusOutput : String)
    (apiDir : List (String × String)) (modelDir : List String) (clientDir : String)
    (clientFiles : List (String × String)) :
    (analyzeChanges statusOutput apiDir modelDir clientDir clientFiles).riskAssessment.factors.generatedChanges =
      ((apiDir.map Prod.fst).filter (fun f => strEnds f ".ts")).length := by
  unfold analyzeChanges
  dsimp only
  rw [assessRisk_factors_eq]
  rfl

/-- C2 counterexample: a run in which the diff changes no generated
file at all (empty porcelain status) while the snapshot holds eleven
generated API files records a generated-API factor of 11 — earning the
`>10` points — although the number of changed generated-API files is
0. -/
theorem generatedChanges_factor_counterexample :
    (analyzeChanges ""
        [("f01.ts", ""), ("f02.ts", ""), ("f03.ts", ""), ("f04.ts", ""),
         ("f05.ts", ""), ("f06.ts", ""), ("f07.ts", ""), ("f08.ts", ""),
         ("f09.ts", ""), ("f10.ts", ""), ("f11.ts", "")]
        [] "./src/client" []).riskAssessment.factors.generatedChanges = 11 ∧
    (analyzeChanges ""
        [("f01.ts", ""), ("f02.ts", ""), ("f03.ts", ""), ("f04.ts", ""),
         ("f05.ts", ""), ("f06.ts", ""), ("f07.ts", ""), ("f08.ts", ""),
         ("f09.ts", ""), ("f10.ts", ""), ("f11.ts", "")]
        [] "./src/client" []).gitChanges.generatedFiles.length = 0 ∧
    (11 : Nat) ≠ 0 := by
  refine ⟨by rfl, by rfl, by decide⟩

/-- The optional plural `s?` of the summary pattern. -/
def optS : List Char → List Char
  | c :: t => if c = 's' then t else c :: t
  | [] => []

/-- The optional group `(?:, (\d+) insertions?\(\+\))?`: either the
whole group matches and is consumed, or nothing is. -/
def tryInsGroup (cs : List Char) : Option (List Char) × List Char :=
  match stripLit ", ".data cs with
  | none => (none, cs)
  | some r0 =>
    let ds := r0.takeWhile isDigitC
    if ds.isEmpty then (none, cs)
    else
      match stripLit " insertion".data (r0.drop ds.length) with
      | none => (none, cs)
      | some r2 =>
        match stripLit "(+)".data (optS r2) with
        | none => (none, cs)
        | some r4 => (some ds, r4)

/-- The optional group `(?:, (\d+) deletions?\(-\))?`. -/
def tryDelGroup (cs : List Char) : Option (List Char) × List Char :=
  match stripLit ", ".data cs with
  | none => (none, cs)
  | some r0 =>
    let ds := r0.takeWhile isDigitC
    if ds.isEmpty then (none, cs)
    else
      match stripLit " deletion".data (r0.drop ds.length) with
      | none => (none, cs)
      | some r2 =>
        match stripLit "(-)".data (optS r2) with
        | none => (none, cs)
        | some r4 => (some ds, r4)

/-- Try the summary pattern
`(\d+) files? changed(?:, (\d+) insertions?\(\+\))?(?:, (\d+) deletions?\(-\))?`
anchored at the head of `cs`, returning the three captured groups. -/
def matchSummaryAt (cs : List Char) : Option (List Char × Option (List Char) × Option (List Char)) :=
  let d1 := cs.takeWhile isDigitC
  if d1.isEmpty then none
  else
    match stripLit " file".data (cs.drop d1.length) with
    | none => none
    | some r2 =>
      match stripLit " changed".data (optS r2) with
      | none => none
      | some r4 =>
        let gi := tryInsGroup r4
        let gd := tryDelGroup gi.2
        some (d1, gi.1, gd.1)

/-- `diffOutput.match(...)` for the summary pattern: the leftmost
position at which the pattern matches. -/
def findSummaryMatch : List Char → Option (List Char × Option (List Char) × Option (List Char))
  | [] => none
  | c :: t =>
    match matchSummaryAt (c :: t) with
    | some m => some m
    | none => findSummaryMatch t

/-- The summary record of `DiffAnalyzer.parseDiffSummary`. -/
structure DiffSummary where
  filesChanged : Nat
  insertions : Nat
  deletions : Nat
deriving DecidableEq, Repr

/-- `DiffAnalyzer.parseDiffSummary`: zeros unless the summary pattern
matches somewhere in the text, in which case each captured group is
parsed with `parseInt(...) || 0`. -/
def parseDiffSummary (diffOutput : String) : DiffSummary :=
  match findSummaryMatch diffOutput.data with
  | none => { filesChanged := 0, insertions := 0, deletions := 0 }
  | some (g1, g2, g3) =>
    { filesChanged := jsParseIntOr0 (some g1)
      insertions := jsParseIntOr0 g2
      deletions := jsParseIntOr0 g3 }

/-- The numeric values of the three captured groups of the first
summary match, when present. -/
def summaryGroupsNat (s : String) : Option (Nat × Option Nat × Option Nat) :=
  (findSummaryMatch s.data).map
    (fun g => (natOfDigits g.1, g.2.1.map natOfDigits, g.2.2.map natOfDigits))

theorem digit_not_ws (c : Char) (h : isDigitC c = true) : isWSC c = false := by
  unfold isDigitC at h
  unfold isWSC
  simp only [Bool.and_eq_true, decide_eq_true_eq] at h
  simp only [Bool.or_eq_false_iff, decide_eq_false_iff_not]
  omega

/-- A digit group: non-empty and all digits. -/
def DigitGroup (g : List Char) : Prop :=
  g ≠ [] ∧ ∀ c ∈ g, isDigitC c = true

theorem digitGroup_takeWhile (cs : List Char) (h : (cs.takeWhile isDigitC).isEmpty = false) :
    DigitGroup (cs.takeWhile isDigitC) := by
  constructor
  · intro hnil
    rw [hnil] at h
    exact absurd h (by simp)
  · intro c hc
    exact List.mem_takeWhile_imp hc

theorem jsParseIntOr0_digits (g : List Char) (h : DigitGroup g) :
    jsParseIntOr0 (some g) = natOfDigits g := by
  rcases h with ⟨hne, hdig⟩
  unfold jsParseIntOr0
  rcases hg : g with _ | ⟨c, t⟩
  · exact absurd hg hne
  · have hc : isDigitC c = true := hdig c (by rw [hg]; simp)
    have hw : isWSC c = false := digit_not_ws c hc
    dsimp only
    rw [List.dropWhile_cons_of_neg (by simp [hw])]
    have hall : ∀ x ∈ c :: t, isDigitC x = true := by
      intro x hx
      exact hdig x (by rw [hg]; exact hx)
    rw [List.takeWhile_eq_self_iff.mpr hall]
    simp

theorem tryInsGroup_digits (cs : List Char) (d : List Char) (r : List Char)
    (h : tryInsGroup cs = (some d, r)) : DigitGroup d := by
  unfold tryInsGroup at h
  rcases h0 : stripLit ", ".data cs with _ | r0 <;> rw [h0] at h
  · exact absurd h (by simp)
  · dsimp only at h
    rcases hds : (r0.takeWhile isDigitC).isEmpty with _ | _
    · rw [hds] at h
      simp only [Bool.false_eq_true, if_false] at h
      rcases h1 : stripLit " insertion".data (r0.drop (r0.takeWhile isDigitC).length)
          with _ | r2 <;> rw [h1] at h
      · exact absurd h (by simp)
      · dsimp only at h
        rcases h2 : stripLit ['(', '+', ')'] (optS r2) with _ | r4 <;> rw [h2] at h
        · exact absurd h (by simp)
        · have hd : d = r0.takeWhile isDigitC := by
            have := h
            injection this with h3 h4
            injection h3 with h5
            exact h5.symm
          rw [hd]
          exact digitGroup_takeWhile r0 hds
    · rw [hds] at h
      simp at h

theorem tryDelGroup_digits (cs : List Char) (d : List Char) (r : List Char)
    (h : tryDelGroup cs = (some d, r)) : DigitGroup d := by
  unfold tryDelGroup at h
  rcases h0 : stripLit ", ".data cs with _ | r0 <;> rw [h0] at h
  · exact absurd h (by simp)
  · dsimp only at h
    rcases hds : (r0.takeWhile isDigitC).isEmpty with _ | _
    · rw [hds] at h
      simp only [Bool.false_eq_true, if_false] at h
      rcases h1 : stripLit " deletion".data (r0.drop (r0.takeWhile isDigitC).length)
          with _ | r2 <;> rw [h1] at h
      · exact absurd h (by simp)
      · dsimp only at h
        rcases h2 : stripLit ['(', '-', ')'] (optS r2) with _ | r4 <;> rw [h2] at h
        · exact absurd h (by simp)
        · have hd : d = r0.takeWhile isDigitC := by
            have := h
            injection this with h3 h4
            injection h3 with h5
            exact h5.symm
          rw [hd]
          exact digitGroup_takeWhile r0 hds
    · rw [hds] at h
      simp at h

theorem matchSummaryAt_groups (cs : List Char) (g1 : List Char)
    (g2 g3 : Option (List Char)) (h : matchSummaryAt cs = some (g1, g2, g3)) :
    DigitGroup g1 ∧ (∀ d, g2 = some d → DigitGroup d) ∧ (∀ d, g3 = some d → DigitGroup d) := by
  unfold matchSummaryAt at h
  dsimp only at h
  rcases hd1 : (cs.takeWhile isDigitC).isEmpty with _ | _
  · rw [hd1] at h
    simp only [Bool.false_eq_true, if_false] at h
    rcases h1 : stripLit " file".data (cs.drop (cs.takeWhile isDigitC).length)
        with _ | r2 <;> rw [h1] at h
    · exact absurd h (by simp)
    · dsimp only at h
      rcases h2 : stripLit [' ', 'c', 'h', 'a', 'n', 'g', 'e', 'd'] (optS r2)
          with _ | r4 <;> rw [h2] at h
      · exact absurd h (by simp)
      · have hinj := h
        injection hinj with ha
        injection ha with hg1 hrest
        injection hrest with hg2 hg3
        refine ⟨hg1 ▸ digitGroup_takeWhile cs hd1, ?_, ?_⟩
        · intro d hd
          rcases hig : tryInsGroup r4 with ⟨og, rest⟩
          rw [hig] at hg2
          dsimp only at hg2
          rcases og with _ | dg
          · rw [← hg2] at hd; exact absurd hd (by simp)
          · rw [← hg2] at hd
            injection hd with hdd
            exact hdd ▸ tryInsGroup_digits r4 dg rest hig
        · intro d hd
          rcases hig : tryInsGroup r4 with ⟨og, rest⟩
          rw [hig] at hg3
          rcases hdg : tryDelGroup rest with ⟨og2, rest2⟩
          rw [hdg] at hg3
          dsimp only at hg3
          rcases og2 with _ | dg2
          · rw [← hg3] at hd; exact absurd hd (by simp)
          · rw [← hg3] at hd
            injection hd with hdd
            exact hdd ▸ tryDelGroup_digits rest dg2 rest2 hdg
  · rw [hd1] at h
    simp at h

theorem findSummaryMatch_groups (cs : List Char) (g1 : List Char)
    (g2 g3 : Option (List Char)) (h : findSummaryMatch cs = some (g1, g2, g3)) :
    DigitGroup g1 ∧ (∀ d, g2 = some d → DigitGroup d) ∧ (∀ d, g3 = some d → DigitGroup d) := by
  induction cs with
  | nil => exact absurd h (by simp [findSummaryMatch])
  | cons c t ih =>
    unfold findSummaryMatch at h
    rcases hm : matchSummaryAt (c :: t) with _ | m <;> rw [hm] at h
    · exact ih h
    · injection h with hme
      subst hme
      exact matchSummaryAt_groups (c :: t) g1 g2 g3 hm

/-- C10.  The summary-line parse is total and defaulting: when the
summary pattern matches, each field equals the integer of the
corresponding captured group, a missing optional group giving 0; when
nothing matches, all three fields are 0.  Being a total function of the
input string, it never throws. -/
theorem parseDiffSummary_defaulting (s : String) :
    (findSummaryMatch s.data = none →
      parseDiffSummary s = { filesChanged := 0, insertions := 0, deletions := 0 }) ∧
    (∀ n mi md, summaryGroupsNat s = some (n, mi, md) →
      parseDiffSummary s =
        { filesChanged := n, insertions := mi.getD 0, deletions := md.getD 0 }) := by
  constructor
  · intro h
    unfold parseDiffSummary
    rw [h]
  · intro n mi md h
    unfold summaryGroupsNat at h
    rcases hm : findSummaryMatch s.data with _ | ⟨g1, g2, g3⟩ <;> rw [hm] at h
    · exact absurd h (by simp)
    · rw [Option.map_some'] at h
      injection h with he
      injection he with hn hrest
      injection hrest with hmi hmd
      rcases findSummaryMatch_groups s.data g1 g2 g3 hm with ⟨hg1, hg2, hg3⟩
      unfold parseDiffSummary
      rw [hm]
      have e1 : jsParseIntOr0 (some g1) = n := by
        rw [jsParseIntOr0_digits g1 hg1, hn]
      have e2 : jsParseIntOr0 g2 = mi.getD 0 := by
        rcases g2 with _ | d
        · rw [← hmi]; rfl
        · rw [← hmi]
          simp only [Option.map_some, Option.getD_some]
          exact jsParseIntOr0_digits d (hg2 d rfl)
      have e3 : jsParseIntOr0 g3 = md.getD 0 := by
        rcases g3 with _ | d
        · rw [← hmd]; rfl
        · rw [← hmd]
          simp only [Option.map_some, Option.getD_some]
          exact jsParseIntOr0_digits d (hg3 d rfl)
      dsimp only
      rw [e1, e2, e3]

/-- Witness for C10: a full summary line parses to its three integers,
and a group-less text parses to zeros. -/
theorem parseDiffSummary_defaulting_witness :
    parseDiffSummary "3 files changed, 10 insertions(+), 2 deletions(-)" =
      { filesChanged := 3, insertions := 10, deletions := 2 } :=
  (parseDiffSummary_defaulting "3 files changed, 10 insertions(+), 2 deletions(-)").2
    3 (some 10) (some 2) (by rfl)
